import Mathlib

/-!
Verification development for the `preamble-installer` tool
(`src/preamble-installer/src/preamble_installer/cli.py`).

The tool scans LaTeX sources for package declarations, resolves the raw
names to installable package identifiers, and drives an external package
manager (`tlmgr`) to install and verify them, with mirror failover on
repository (TLPDB) errors.

The embedding below follows the Python source function by function:
 - pure text processing (`strip_comments`, `extract_latex_packages`) is
   embedded as computable functions over `List Char` / `String`;
 - each subprocess wrapper (`run_tlmgr_install`,
   `is_tlmgr_package_installed`, `run_tlmgr_option_repository`) becomes a
   pure function of the subprocess outcome, modelled by `ProcResult`
   (process completed with exit code / stdout / stderr, timed out, or the
   binary was not found);
 - the orchestration loop in `main` becomes a state machine over an
   abstract stateful `Client` (the three tlmgr operations); every client
   call is recorded in an event trace so that claims about the exact call
   sequence can be stated.

Python string primitives used by the source (`str.strip`, `str.lower`,
`str.split`, `str.splitlines`, lexicographic `sorted`) are re-implemented
on `List Char` so that everything reduces in the kernel; they model the
Python semantics on the ASCII inputs the claims are about (the Unicode
extras of Python's versions are irrelevant here and noted where dropped).
-/

/-! ## Python string primitives -/

/-- Characters treated as whitespace by Python's `str.strip()` (ASCII part;
Python additionally strips some Unicode spaces, not needed here). -/
def isPyWhitespace (c : Char) : Bool :=
  c = ' ' || c = '\t' || c = '\n' || c = '\r' || c = '\x0b' || c = '\x0c'

/-- Model of Python `str.strip()` on the character list. -/
def pyStripChars (cs : List Char) : List Char :=
  ((cs.dropWhile isPyWhitespace).reverse.dropWhile isPyWhitespace).reverse

/-- Model of Python `str.strip()`. -/
def pyStrip (s : String) : String :=
  String.mk (pyStripChars s.data)

/-- Model of Python `str.lower()` (ASCII case folding, as `Char.toLower`). -/
def pyLower (s : String) : String :=
  String.mk (s.data.map Char.toLower)

/-- Model of Python `a.split(sep)` for a one-character separator: split at every
occurrence, keeping empty parts. -/
def pySplitChar (sep : Char) : List Char → List (List Char)
  | [] => [[]]
  | c :: rest =>
    if c = sep then
      [] :: pySplitChar sep rest
    else
      match pySplitChar sep rest with
      | [] => [[c]]
      | part :: parts => (c :: part) :: parts

/-- Model of Python `str.splitlines()` restricted to the line boundaries
that can occur here: `\n`, `\r\n` and `\r` (no trailing empty line). -/
def pySplitlines : List Char → List Char → List (List Char)
  | cur, [] => if cur.isEmpty then [] else [cur.reverse]
  | cur, '\r' :: '\n' :: rest => cur.reverse :: pySplitlines [] rest
  | cur, '\n' :: rest => cur.reverse :: pySplitlines [] rest
  | cur, '\r' :: rest => cur.reverse :: pySplitlines [] rest
  | cur, c :: rest => pySplitlines (c :: cur) rest

/-- Does `p` occur as a prefix of `cs`? (Used for Python's substring test.) -/
def isPrefixOfChars : List Char → List Char → Bool
  | [], _ => true
  | _ :: _, [] => false
  | p :: ps, c :: cs => p = c && isPrefixOfChars ps cs

/-- Model of Python `needle in hay` (substring containment). -/
def containsSub (hay needle : List Char) : Bool :=
  match hay with
  | [] => needle.isEmpty
  | _ :: rest => isPrefixOfChars needle hay || containsSub rest needle

/-- Lexicographic comparison of character lists by code point; this is the
order Python's `sorted` uses on strings. -/
def charListLt : List Char → List Char → Bool
  | [], [] => false
  | [], _ :: _ => true
  | _ :: _, [] => false
  | a :: as, b :: bs => if a = b then charListLt as bs else decide (a.toNat < b.toNat)

/-- Insert a string into a list sorted by `charListLt` (stable, ascending). -/
def insertSorted (a : String) : List String → List String
  | [] => [a]
  | b :: rest => if charListLt b.data a.data then b :: insertSorted a rest else a :: b :: rest

/-- Model of Python `sorted` on a list of strings (insertion sort; same
result as any sort by the code-point order). -/
def sortStrings (l : List String) : List String :=
  l.foldr insertSorted []

/-! ## `is_tlpdb_error` (cli.py lines 28-30) -/

/-- Embedding of `is_tlpdb_error`: lowercase the detail and test the two
TLPDB-error substrings with Python's `in`. -/
def is_tlpdb_error (detail : String) : Bool :=
  let lowered := pyLower detail
  containsSub lowered.data "texlive.tlpdb".data ||
    containsSub lowered.data "could not get texlive.tlpdb".data

/-! ## `strip_comments` (cli.py lines 33-34)

The source is `re.split(r"(?<!\\\\)%", line, maxsplit=1)[0]`.  The raw
string `r"(?<!\\\\)%"` denotes the regex `(?<!\\\\)%`, whose lookbehind
`\\\\` matches two literal backslash characters: the split point is the
first `%` that is NOT immediately preceded by the two-character sequence
`\\`.  (In particular a `%` preceded by a single backslash — LaTeX's
escaped `\%` — IS a split point under this regex.)  The function returns
the prefix before the first such `%`. -/

/-- Scan for the first `%` not preceded by two backslashes, tracking the
previous two characters; return the prefix before it. -/
def stripCommentsAux : Option Char → Option Char → List Char → List Char
  | _, _, [] => []
  | p2, p1, c :: rest =>
    if c = '%' ∧ ¬ (p2 = some '\\' ∧ p1 = some '\\') then []
    else c :: stripCommentsAux p1 (some c) rest

/-- Embedding of `strip_comments` on character lists. -/
def stripCommentsChars (line : List Char) : List Char :=
  stripCommentsAux none none line

/-- Embedding of `strip_comments`. -/
def strip_comments (line : String) : String :=
  String.mk (stripCommentsChars line.data)

/-! ## `USEPACKAGE_PATTERN` and `extract_latex_packages` (cli.py lines 18, 37-47)

The regex is `\\(?:usepackage|RequirePackage)(?:\[[^\]]*\])?\{([^}]*)\}`.
Matching at a position is deterministic: a literal backslash, then one of
the two macro names, then optionally `[` + non-`]` characters + `]` (the
bracket part can only end at the FIRST `]`; if `{` does not follow it the
regex backtracks to skipping the optional group, which then fails because
the next character is `[`), then `{` + the capture group of non-`}`
characters + `}`.  `finditer` scans left to right, advancing one character
on failure and past the match on success. -/

/-- If `p` is a prefix of `cs`, return the remainder of `cs`. -/
def dropPrefixChars : List Char → List Char → Option (List Char)
  | [], cs => some cs
  | _ :: _, [] => none
  | p :: ps, c :: cs => if c = p then dropPrefixChars ps cs else none

/-- Take characters up to the first occurrence of `stop`; return them and
the remainder after `stop`, or `none` when `stop` does not occur. -/
def takeUntil (stop : Char) : List Char → Option (List Char × List Char)
  | [] => none
  | c :: cs =>
    if c = stop then some ([], cs)
    else
      match takeUntil stop cs with
      | some (pre, rest) => some (c :: pre, rest)
      | none => none

/-- Match `\{([^}]*)\}` at the start of `cs`: the capture group and the
remainder after the closing brace. -/
def matchBraceArg : List Char → Option (List Char × List Char)
  | '{' :: r => takeUntil '}' r
  | _ => none

/-- Match the whole `USEPACKAGE_PATTERN` at the start of `cs`: on success,
the capture group (the text between the braces) and the remainder after
the match. -/
def matchAt (cs : List Char) : Option (List Char × List Char) :=
  match cs with
  | '\\' :: rest =>
    match (dropPrefixChars "usepackage".data rest).orElse
        (fun _ => dropPrefixChars "RequirePackage".data rest) with
    | none => none
    | some afterName =>
      let viaBracket : Option (List Char × List Char) :=
        match afterName with
        | '[' :: r2 =>
          match takeUntil ']' r2 with
          | some (_, afterBr) => matchBraceArg afterBr
          | none => none
        | _ => none
      match viaBracket with
      | some res => some res
      | none => matchBraceArg afterName
  | _ => none

/-- Model of `finditer`: collect the capture groups of all non-overlapping
matches, scanning left to right.  Fuel-based structural recursion; every
step consumes at least one character (a successful match consumes at least
the backslash), so `fuel = cs.length` never runs out. -/
def findMatchesFuel : Nat → List Char → List (List Char)
  | 0, _ => []
  | _ + 1, [] => []
  | fuel + 1, cs =>
    match matchAt cs with
    | some (grp, after) => grp :: findMatchesFuel fuel after
    | none => findMatchesFuel fuel cs.tail

/-- All capture groups of `USEPACKAGE_PATTERN` over a text. -/
def findMatches (cs : List Char) : List (List Char) :=
  findMatchesFuel cs.length cs

/-- The comma-separated entries of one capture group, each stripped, empty
entries dropped (`[part.strip() for part in group.split(",") if part.strip()]`). -/
def namesOfGroup (g : List Char) : List String :=
  ((pySplitChar ',' g).map (fun part => String.mk (pyStripChars part))).filter
    (fun p => p ≠ "")

/-- Per-file preprocessing in `extract_latex_packages`: split into lines,
strip comments from each, rejoin with newlines. -/
def processFileText (text : String) : List Char :=
  List.intercalate ['\n'] ((pySplitlines [] text.data).map stripCommentsChars)

/-- Embedding of `extract_latex_packages`, taking the contents of the
resolved TeX files (the filesystem read is abstracted away): the sorted,
deduplicated union of all extracted names. -/
def extract_latex_packages (texts : List String) : List String :=
  let names := texts.flatMap (fun t => (findMatches (processFileText t)).flatMap namesOfGroup)
  sortStrings names.eraseDups

/-! ## Installer Client subprocess wrappers (cli.py lines 73-142)

`ProcResult` models the outcome of `subprocess.run` under
`capture_output=True, text=True, check=False`: normal completion with an
exit code and captured stdout/stderr, `subprocess.TimeoutExpired`, or
`FileNotFoundError` (the binary is missing). -/

structure InstallResult where
  package : String
  status : String
  detail : String
deriving DecidableEq, Repr

inductive ProcResult where
  | completed (returncode : Int) (stdout stderr : String)
  | timedOut
  | fileNotFound
deriving DecidableEq

/-- Embedding of `run_tlmgr_install` as a function of the subprocess
outcome.  The trimmed-stderr / trimmed-stdout / exit-code message chain is
written inline exactly as in the source. -/
def run_tlmgr_install (tlmgr_cmd package : String) (timeout_seconds : Nat)
    (proc : ProcResult) : InstallResult :=
  match proc with
  | ProcResult.timedOut =>
    ⟨package, "timeout", s!"timed out after {timeout_seconds}s"⟩
  | ProcResult.fileNotFound =>
    ⟨package, "error", s!"command not found: {tlmgr_cmd}"⟩
  | ProcResult.completed returncode stdout stderr =>
    if returncode = 0 then ⟨package, "ok", "installed"⟩
    else
      let stderrT := pyStrip stderr
      let stdoutT := pyStrip stdout
      let msg := if stderrT ≠ "" then stderrT
        else if stdoutT ≠ "" then stdoutT
        else s!"exit code {returncode}"
      ⟨package, "failed", msg⟩

/-- Embedding of `is_tlmgr_package_installed` as a function of the
subprocess outcome (the `package` argument only selects the query target
and does not influence the result shape). -/
def is_tlmgr_package_installed (tlmgr_cmd package : String) (timeout_seconds : Nat)
    (proc : ProcResult) : Bool × String :=
  match proc with
  | ProcResult.timedOut =>
    (false, s!"install-check timed out after {timeout_seconds}s")
  | ProcResult.fileNotFound =>
    (false, s!"command not found: {tlmgr_cmd}")
  | ProcResult.completed returncode stdout stderr =>
    if returncode = 0 then (true, "already installed")
    else
      let stderrT := pyStrip stderr
      let stdoutT := pyStrip stdout
      let msg := if stderrT ≠ "" then stderrT
        else if stdoutT ≠ "" then stdoutT
        else s!"exit code {returncode}"
      (false, msg)

/-- Embedding of `run_tlmgr_option_repository` as a function of the
subprocess outcome. -/
def run_tlmgr_option_repository (tlmgr_cmd repository : String) (timeout_seconds : Nat)
    (proc : ProcResult) : Bool × String :=
  match proc with
  | ProcResult.timedOut =>
    (false, s!"timed out after {timeout_seconds}s while setting repository")
  | ProcResult.fileNotFound =>
    (false, s!"command not found: {tlmgr_cmd}")
  | ProcResult.completed returncode stdout stderr =>
    if returncode = 0 then (true, "repository updated")
    else
      let stderrT := pyStrip stderr
      let stdoutT := pyStrip stdout
      let msg := if stderrT ≠ "" then stderrT
        else if stdoutT ≠ "" then stdoutT
        else s!"exit code {returncode}"
      (false, msg)

/-- The detail-precedence rule as §4.3 of the spec words it, for comparison
with the inline computations of the three wrappers above: trimmed stderr if
non-empty, else trimmed stdout if non-empty, else a synthetic
exit-code message. -/
def detailPrecedence (stderr stdout : String) (returncode : Int) : String :=
  if pyStrip stderr ≠ "" then pyStrip stderr
  else if pyStrip stdout ≠ "" then pyStrip stdout
  else s!"exit code {returncode}"

/-! ## Resolver (cli.py lines 194-210)

`dictGet m key dflt` models Python `m.get(key, dflt)` on the alias
dictionaries.  `resolveNames` is the raw-name loop (lines 197-202): each
extracted name is mapped through the latex-to-tlmgr table defaulting to
itself; a falsy (empty) mapped value sends the raw name to the unresolved
list, any other mapped value is added to the resolved collection.  The
recursion produces both lists in encounter order, exactly as the Python
loop's appends do. -/

def dictGet (m : List (String × String)) (key dflt : String) : String :=
  match m.find? (fun kv => kv.1 = key) with
  | some kv => kv.2
  | none => dflt

def resolveNames (latex_to_tlmgr : List (String × String)) : List String → List String × List String
  | [] => ([], [])
  | name :: rest =>
    let r := resolveNames latex_to_tlmgr rest
    let mapped := dictGet latex_to_tlmgr name name
    if mapped ≠ "" then (mapped :: r.1, r.2) else (r.1, name :: r.2)

/-! ## Orchestrator (cli.py lines 252-368)

The three tlmgr operations are abstracted into a stateful `Client` over a
world type `σ` (the tlmgr command string and the three per-operation
timeouts are fixed for a run and absorbed into the client).  The loop
state mirrors the local variables of `main`: the three outcome buckets,
`current_repo_index`, plus the client world and a trace recording every
client call in order, so that claims about the exact call sequence can be
stated. -/

inductive Event where
  | isInstalledCall (package : String) (installed : Bool) (detail : String)
  | installCall (package : String) (result : InstallResult)
  | setRepositoryCall (repository : String) (ok : Bool) (msg : String)
deriving DecidableEq

structure Client (σ : Type) where
  isInstalled : String → σ → (Bool × String) × σ
  install : String → σ → InstallResult × σ
  setRepository : String → σ → (Bool × String) × σ

structure RunState (σ : Type) where
  world : σ
  trace : List Event
  failures : List InstallResult
  timeouts : List InstallResult
  skipped : List InstallResult
  current_repo_index : Nat

def initState (w : σ) : RunState σ :=
  ⟨w, [], [], [], [], 0⟩

/-- The failover `while` loop (cli.py lines 286-303): while a further
mirror exists, advance the cursor, try to set that repository; on failure
continue with the next mirror, on success retry the install once and stop.
If the list is exhausted the original failed result is kept.  (The
`switched` flag of the source only selects a log line and is dropped.)
Fuel-based recursion: the cursor strictly increases each iteration, so the
guard `current_repo_index + 1 < repositories.length` fails after at most
`repositories.length` iterations and that fuel value never runs out. -/
def failoverLoop (c : Client σ) (repositories : List String) (pkg : String) :
    Nat → InstallResult → RunState σ → InstallResult × RunState σ
  | 0, result, st => (result, st)
  | fuel + 1, result, st =>
    if h : st.current_repo_index + 1 < repositories.length then
      let next_repo := repositories.get ⟨st.current_repo_index + 1, h⟩
      let q := c.setRepository next_repo st.world
      let st1 : RunState σ :=
        { st with
          current_repo_index := st.current_repo_index + 1,
          world := q.2,
          trace := st.trace ++ [Event.setRepositoryCall next_repo q.1.1 q.1.2] }
      if q.1.1 then
        let r := c.install pkg st1.world
        (r.1, { st1 with world := r.2, trace := st1.trace ++ [Event.installCall pkg r.1] })
      else
        failoverLoop c repositories pkg fuel result st1
    else (result, st)

/-- The tail of the install-loop body (cli.py lines 305-328), applied to
the result left after any failover retry: an `ok` result is not bucketed;
a `timeout` result triggers a fresh `isInstalled` query and is reclassified
as skipped when that query is positive, kept in the timeout bucket
otherwise; every other non-ok result goes to the failures bucket. -/
def bucketResult (c : Client σ) (pkg : String) (fo : InstallResult × RunState σ) : RunState σ :=
  let result := fo.1
  let st2 := fo.2
  if result.status = "ok" then st2
  else if result.status = "timeout" then
    let q2 := c.isInstalled pkg st2.world
    let st3 : RunState σ :=
      { st2 with
        world := q2.2,
        trace := st2.trace ++ [Event.isInstalledCall pkg q2.1.1 q2.1.2] }
    if q2.1.1 then
      { st3 with
        skipped := st3.skipped ++
          [⟨pkg, "skipped", "install timed out, but package is installed (" ++ q2.1.2 ++ ")"⟩] }
    else
      { st3 with timeouts := st3.timeouts ++ [result] }
  else
    { st2 with failures := st2.failures ++ [result] }

/-- One iteration of the install loop (cli.py lines 267-328): pre-check
`isInstalled` (skip when true), attempt the install, run the failover loop
when the attempt failed with a TLPDB-error detail and auto-switch is on
and a further mirror exists, then bucket the (possibly retried) result. -/
def processPackage (c : Client σ) (repositories : List String) (auto_switch_repo : Bool)
    (st : RunState σ) (pkg : String) : RunState σ :=
  let q := c.isInstalled pkg st.world
  let st0 : RunState σ :=
    { st with
      world := q.2,
      trace := st.trace ++ [Event.isInstalledCall pkg q.1.1 q.1.2] }
  if q.1.1 then
    { st0 with skipped := st0.skipped ++ [⟨pkg, "skipped", q.1.2⟩] }
  else
    let r0 := c.install pkg st0.world
    let st1 : RunState σ :=
      { st0 with
        world := r0.2,
        trace := st0.trace ++ [Event.installCall pkg r0.1] }
    let fo :=
      if r0.1.status = "failed" ∧ auto_switch_repo = true ∧ repositories ≠ [] ∧
          is_tlpdb_error r0.1.detail = true ∧
          st1.current_repo_index + 1 < repositories.length then
        failoverLoop c repositories pkg repositories.length r0.1 st1
      else (r0.1, st1)
    bucketResult c pkg fo

/-- The pre-loop primary-repository setup (cli.py lines 252-259): when the
repository list is non-empty, attempt to set the first mirror; success or
failure only selects a log line. -/
def primarySetup (c : Client σ) (repositories : List String) (st : RunState σ) : RunState σ :=
  match repositories with
  | [] => st
  | primary :: _ =>
    let q := c.setRepository primary st.world
    { st with
      world := q.2,
      trace := st.trace ++ [Event.setRepositoryCall primary q.1.1 q.1.2] }

/-- One step of a verification loop: query `isInstalled`, appending the
package to the missing list when the query is negative (cli.py lines
348-354 and the `--verify-only` loop at lines 231-238). -/
def verifyStep (c : Client σ) (acc : RunState σ × List String) (pkg : String) :
    RunState σ × List String :=
  let q := c.isInstalled pkg acc.1.world
  let st : RunState σ :=
    { acc.1 with
      world := q.2,
      trace := acc.1.trace ++ [Event.isInstalledCall pkg q.1.1 q.1.2] }
  if q.1.1 then (st, acc.2) else (st, acc.2 ++ [pkg])

structure RunReport (σ : Type) where
  exitCode : Nat
  state : RunState σ
  missing_after_install : List String

/-- The post-loop stage (cli.py lines 330-368): when the failed or timeout
bucket is non-empty, report and exit 1 with no further client calls;
otherwise run the final verification pass over every package, exiting 1
when anything is missing and 0 otherwise. -/
def postInstall (c : Client σ) (ordered_packages : List String) (st : RunState σ) :
    RunReport σ :=
  if st.failures ≠ [] ∨ st.timeouts ≠ [] then
    ⟨1, st, []⟩
  else
    let v := ordered_packages.foldl (verifyStep c) (st, [])
    if v.2 ≠ [] then ⟨1, v.1, v.2⟩ else ⟨0, v.1, v.2⟩

/-- The whole install phase: primary-repository setup, the per-package
install loop, then the post-loop stage. -/
def installPhase (c : Client σ) (repositories : List String) (auto_switch_repo : Bool)
    (ordered_packages : List String) (w0 : σ) : RunReport σ :=
  let st1 := primarySetup c repositories (initState w0)
  let st2 := ordered_packages.foldl (processPackage c repositories auto_switch_repo) st1
  postInstall c ordered_packages st2

/-- The `--verify-only` phase (cli.py lines 228-246): the verification
loop alone, exit 1 when anything is missing and 0 otherwise. -/
def verifyOnlyPhase (c : Client σ) (ordered_packages : List String) (w0 : σ) : RunReport σ :=
  let v := ordered_packages.foldl (verifyStep c) (initState w0, [])
  if v.2 ≠ [] then ⟨1, v.1, v.2⟩ else ⟨0, v.1, v.2⟩

/-- Result of a whole run of `main`: either a `typer.BadParameter` usage
error raised before the install machinery starts, or a finished run. -/
inductive RunOutcome (σ : Type) where
  | badParameter (msg : String)
  | finished (report : RunReport σ)

/-- Embedding of the `main` command from the TeX-file check onward
(cli.py lines 181-368).  The filesystem is abstracted: `texts` is the list
of contents of the files matched by `resolve_tex_files`, so
`tex_globs` matching zero files is `texts = []`.  The resolved set is a
Python `set` sorted at the end; here the collected names are deduplicated
and sorted, which yields the same list. -/
def runMain (texts : List String)
    (latex_to_tlmgr requested_aliases : List (String × String))
    (extras_inferred extras_requested : List String)
    (repositories : List String) (auto_switch_repo : Bool)
    (dry_run verify_only : Bool)
    (c : Client σ) (w0 : σ) : RunOutcome σ :=
  if texts = [] then
    RunOutcome.badParameter
      "No TeX files found from tex_globs. Check settings.tex_globs and --tex-root."
  else
    let latex_packages := extract_latex_packages texts
    let rn := resolveNames latex_to_tlmgr latex_packages
    let resolvedAll :=
      rn.1 ++ extras_inferred ++ extras_requested.map (fun n => dictGet requested_aliases n n)
    let ordered_packages := sortStrings resolvedAll.eraseDups
    if dry_run then RunOutcome.finished ⟨0, initState w0, []⟩
    else if verify_only then RunOutcome.finished (verifyOnlyPhase c ordered_packages w0)
    else RunOutcome.finished (installPhase c repositories auto_switch_repo ordered_packages w0)

/-- Exit code of a run.  `typer.BadParameter` is a `click.UsageError`,
which click terminates with exit code 2; `typer.Exit(code=1)` is 1 and a
normal return is 0 (already recorded in the report). -/
def exitCodeOf : RunOutcome σ → Nat
  | RunOutcome.badParameter _ => 2
  | RunOutcome.finished r => r.exitCode

/-- Client-call trace of a run.  A usage error is raised before any
package-manager subprocess is spawned, so its trace is empty. -/
def traceOf : RunOutcome σ → List Event
  | RunOutcome.badParameter _ => []
  | RunOutcome.finished r => r.state.trace

/-! ## Event counting helpers -/

def isInstallEvent : Event → Bool
  | Event.installCall _ _ => true
  | _ => false

def countInstallCalls (t : List Event) : Nat :=
  (t.filter isInstallEvent).length

def isSetRepositoryEvent : Event → Bool
  | Event.setRepositoryCall _ _ _ => true
  | _ => false

def countSetRepositoryCalls (t : List Event) : Nat :=
  (t.filter isSetRepositoryEvent).length

def isInstalledQueryEvent : Event → Bool
  | Event.isInstalledCall _ _ _ => true
  | _ => false

def countIsInstalledCalls (t : List Event) : Nat :=
  (t.filter isInstalledQueryEvent).length

/-! ## Concrete clients used by witnesses -/

/-- A client on which every operation succeeds and every package is
already installed. -/
def idleClient : Client Unit where
  isInstalled := fun _ w => ((true, "already installed"), w)
  install := fun pkg w => (⟨pkg, "ok", "installed"⟩, w)
  setRepository := fun _ w => ((true, "repository updated"), w)

/-- A client scripting the failover scenario: nothing is installed, the
first install attempt fails with a TLPDB-error detail, every later attempt
fails with an unrelated detail, and repository switches succeed.  The
world is the number of install attempts so far. -/
def tlpdbScriptClient : Client Nat where
  isInstalled := fun _ n => ((false, "not installed"), n)
  install := fun pkg n =>
    (⟨pkg, "failed", if n = 0 then "Could not get TeXLive.tlpdb" else "still failing"⟩, n + 1)
  setRepository := fun _ n => ((true, "repository updated"), n)

/-- A client scripting the timeout-reclassification scenario: the
pre-check says not installed, the install attempt times out, and every
later `isInstalled` query says installed.  The world counts `isInstalled`
queries. -/
def timeoutScriptClient : Client Nat where
  isInstalled := fun _ n =>
    ((decide (0 < n), if 0 < n then "already installed" else "not installed"), n + 1)
  install := fun pkg n => (⟨pkg, "timeout", "timed out after 180s"⟩, n)
  setRepository := fun _ n => ((true, "repository updated"), n)

/-! ## Claims -/

/-- C2 (code bug witness): the first half of the claim holds — the line
with an unescaped `%` after the declaration yields package `foo` — but the
second half fails: the regex `(?<!\\\\)%` demands TWO backslashes before a
`%` to suppress the comment, so a LaTeX-escaped marker `\%` (one
backslash) DOES start a comment, and a line with an escaped marker before
a package declaration IS truncated at that marker, extracting nothing. -/
theorem escaped_marker_still_truncates :
    extract_latex_packages ["\\usepackage\x7bfoo\x7d % comment"] = ["foo"] ∧
    strip_comments "ok \\% kept \\usepackage\x7bfoo\x7d" = "ok \\" ∧
    extract_latex_packages ["ok \\% kept \\usepackage\x7bfoo\x7d"] = [] ∧
    strip_comments "\\\\% after a double backslash the marker is kept" =
      "\\\\% after a double backslash the marker is kept" := by
  decide

/-- C5: for every failed subprocess completion (nonzero exit code), each
of the three Installer Client wrappers builds its detail message by the
one precedence rule of §4.3: trimmed stderr if non-empty, else trimmed
stdout if non-empty, else the synthetic exit-code message; and the install
wrapper reports status `failed` there. -/
theorem detail_precedence_uniform (tlmgr_cmd pkg repo : String)
    (t1 t2 t3 : Nat) (returncode : Int) (stdout stderr : String)
    (h : returncode ≠ 0) :
    run_tlmgr_install tlmgr_cmd pkg t1 (ProcResult.completed returncode stdout stderr) =
      ⟨pkg, "failed", detailPrecedence stderr stdout returncode⟩ ∧
    is_tlmgr_package_installed tlmgr_cmd pkg t2 (ProcResult.completed returncode stdout stderr) =
      (false, detailPrecedence stderr stdout returncode) ∧
    run_tlmgr_option_repository tlmgr_cmd repo t3 (ProcResult.completed returncode stdout stderr) =
      (false, detailPrecedence stderr stdout returncode) := by
  refine ⟨?_, ?_, ?_⟩ <;>
    simp [run_tlmgr_install, is_tlmgr_package_installed, run_tlmgr_option_repository,
      detailPrecedence, h]

/-- Witness for C5 at exit code 1 with blank stderr and a padded stdout:
the trimmed stdout wins. -/
theorem detail_precedence_uniform_witness :
    (1 : Int) ≠ 0 ∧
    run_tlmgr_install "tlmgr" "amsmath" 180 (ProcResult.completed 1 "  mirror down \n" "  ") =
      ⟨"amsmath", "failed", "mirror down"⟩ := by
  have h := detail_precedence_uniform "tlmgr" "amsmath" "repo" 180 25 45 1
    "  mirror down \n" "  " (by decide)
  refine ⟨by decide, ?_⟩
  rw [h.1]
  decide

/-- C7 counterexample: with zero matched TeX files the run raises
`typer.BadParameter`, a click usage error, which terminates the process
with exit code 2, not 1 (the claim's stated code); no package-manager
subprocess is invoked. -/
theorem zero_tex_files_exit_code_not_one :
    exitCodeOf (runMain [] [] [] [] [] [] true false false idleClient ()) ≠ 1 ∧
    exitCodeOf (runMain [] [] [] [] [] [] true false false idleClient ()) = 2 ∧
    traceOf (runMain [] [] [] [] [] [] true false false idleClient ()) = [] := by
  refine ⟨by decide, by decide, by decide⟩

/-- C7 (amended): if the configured globs match zero source files, the run
fails with exit code 2 (the usage-error code of the CLI framework) before
any package-manager subprocess is invoked — the client-call trace is
empty. -/
theorem zero_tex_files_usage_error (latex_to_tlmgr requested_aliases : List (String × String))
    (extras_inferred extras_requested repositories : List String)
    (auto_switch_repo dry_run verify_only : Bool) (c : Client σ) (w0 : σ) :
    exitCodeOf (runMain [] latex_to_tlmgr requested_aliases extras_inferred extras_requested
        repositories auto_switch_repo dry_run verify_only c w0) = 2 ∧
    traceOf (runMain [] latex_to_tlmgr requested_aliases extras_inferred extras_requested
        repositories auto_switch_repo dry_run verify_only c w0) = [] := by
  exact ⟨rfl, rfl⟩

/-! Helper lemmas for the resolver claim. -/

lemma resolveNames_empty_not_mem (m : List (String × String)) (names : List String) :
    "" ∉ (resolveNames m names).1 := by
  induction names with
  | nil => simp [resolveNames]
  | cons a rest ih =>
    simp only [resolveNames]
    split
    · rename_i hne
      intro hmem
      rcases List.mem_cons.mp hmem with h | h
      · exact hne h.symm
      · exact ih h
    · exact ih

lemma resolveNames_unresolved_mem (m : List (String × String)) (names : List String)
    (name : String) (hmem : name ∈ names) (h : dictGet m name name = "") :
    name ∈ (resolveNames m names).2 := by
  induction names with
  | nil => cases hmem
  | cons a rest ih =>
    rcases List.mem_cons.mp hmem with rfl | hrest
    · simp only [resolveNames, h]
      simp
    · simp only [resolveNames]
      split
      · exact ih hrest
      · exact List.mem_cons_of_mem _ (ih hrest)

lemma resolveNames_resolved_mem (m : List (String × String)) (names : List String)
    (name : String) (hmem : name ∈ names) (h : dictGet m name name ≠ "") :
    dictGet m name name ∈ (resolveNames m names).1 := by
  induction names with
  | nil => cases hmem
  | cons a rest ih =>
    rcases List.mem_cons.mp hmem with rfl | hrest
    · simp only [resolveNames]
      rw [if_pos h]
      simp
    · simp only [resolveNames]
      split
      · exact List.mem_cons_of_mem _ (ih hrest)
      · exact ih hrest

/-- C8: every extracted raw name is mapped through the latex-to-tool alias
table with identity default; a name whose mapped value is the empty string
goes to the unresolved list and the empty string is never in the resolved
collection; every other mapped value is added to the resolved
collection. -/
theorem resolver_alias_identity_and_empty_exclusion (m : List (String × String))
    (names : List String) (name : String) (hmem : name ∈ names) :
    "" ∉ (resolveNames m names).1 ∧
    (dictGet m name name = "" → name ∈ (resolveNames m names).2) ∧
    (dictGet m name name ≠ "" → dictGet m name name ∈ (resolveNames m names).1) :=
  ⟨resolveNames_empty_not_mem m names,
    fun h => resolveNames_unresolved_mem m names name hmem h,
    fun h => resolveNames_resolved_mem m names name hmem h⟩

/-- Witness for C8 on the spec's own example: with alias map
`foo ↦ bar-tex, baz ↦ ""` and names `foo baz qux`, the name `baz` is
unresolved and `bar-tex` is resolved (and `qux` resolves to itself by the
identity default, checked directly). -/
theorem resolver_alias_identity_and_empty_exclusion_witness :
    ("baz" : String) ∈ (resolveNames [("foo", "bar-tex"), ("baz", "")] ["baz", "foo", "qux"]).2 ∧
    ("bar-tex" : String) ∈ (resolveNames [("foo", "bar-tex"), ("baz", "")] ["baz", "foo", "qux"]).1 ∧
    resolveNames [("foo", "bar-tex"), ("baz", "")] ["baz", "foo", "qux"] =
      (["bar-tex", "qux"], ["baz"]) := by
  have h1 := resolver_alias_identity_and_empty_exclusion [("foo", "bar-tex"), ("baz", "")]
    ["baz", "foo", "qux"] "baz" (by decide)
  have h2 := resolver_alias_identity_and_empty_exclusion [("foo", "bar-tex"), ("baz", "")]
    ["baz", "foo", "qux"] "foo" (by simp)
  refine ⟨h1.2.1 (by decide), ?_, by decide⟩
  have := h2.2.2 (by decide)
  simpa using this

/-- C4: whatever install result is left after any failover retry, if its
status is `timeout` the loop performs a fresh `isInstalled` query; a
positive answer reclassifies the package as skipped (with the
timed-out-but-installed detail), a negative answer keeps the result in the
timeout bucket — and in neither case does it land in the failures
bucket. -/
theorem timeout_recheck_reclassifies (c : Client σ) (pkg : String) (r : InstallResult)
    (st : RunState σ) (b : Bool) (d2 : String) (w3 : σ)
    (hr : r.status = "timeout")
    (hq : c.isInstalled pkg st.world = ((b, d2), w3)) :
    bucketResult c pkg (r, st) =
      (if b then
        { st with
          world := w3,
          trace := st.trace ++ [Event.isInstalledCall pkg b d2],
          skipped := st.skipped ++
            [⟨pkg, "skipped", "install timed out, but package is installed (" ++ d2 ++ ")"⟩] }
      else
        { st with
          world := w3,
          trace := st.trace ++ [Event.isInstalledCall pkg b d2],
          timeouts := st.timeouts ++ [r] }) := by
  cases b <;> simp [bucketResult, hr, hq]

/-- Witness for C4: on the scripted client the install attempt for
`amsmath` times out and the follow-up query reports it installed, so the
final outcome is skipped with the timed-out-but-installed detail and the
timeout bucket stays empty. -/
theorem timeout_recheck_reclassifies_witness :
    (processPackage timeoutScriptClient [] true (initState 0) "amsmath").skipped =
      [⟨"amsmath", "skipped", "install timed out, but package is installed (already installed)"⟩] ∧
    (processPackage timeoutScriptClient [] true (initState 0) "amsmath").timeouts = [] ∧
    (processPackage timeoutScriptClient [] true (initState 0) "amsmath").failures = [] := by
  have h := timeout_recheck_reclassifies (σ := Nat) timeoutScriptClient "amsmath"
    ⟨"amsmath", "timeout", "timed out after 180s"⟩
    { world := 1, trace := [Event.isInstalledCall "amsmath" false "not installed",
        Event.installCall "amsmath" ⟨"amsmath", "timeout", "timed out after 180s"⟩],
      failures := [], timeouts := [], skipped := [], current_repo_index := 0 }
    true "already installed" 2 (by decide) (by decide)
  have hstep : processPackage timeoutScriptClient [] true (initState 0) "amsmath" =
      bucketResult timeoutScriptClient "amsmath"
        (⟨"amsmath", "timeout", "timed out after 180s"⟩,
          { world := 1, trace := [Event.isInstalledCall "amsmath" false "not installed",
              Event.installCall "amsmath" ⟨"amsmath", "timeout", "timed out after 180s"⟩],
            failures := [], timeouts := [], skipped := [], current_repo_index := 0 }) := by
    simp [processPackage, timeoutScriptClient, initState]
  rw [hstep, h]
  decide

/-- C1: with repositories `[A, B]`, the cursor on `A`, auto-switch
enabled, a pre-check answering not-installed and an install attempt
failing with a TLPDB-error detail, the loop performs exactly
`setRepository B` followed by exactly one retried install of the same
package — the appended trace is exactly those four client calls — and when
the retry also fails the package is recorded in the failures bucket with
the cursor now on `B`; no further install attempt happens for it. -/
theorem tlpdb_failover_retries_once_then_fails (c : Client σ) (A B pkg : String)
    (st : RunState σ) (d0 det1 m : String) (w1 w2 w3 w4 : σ) (r2 : InstallResult)
    (hidx : st.current_repo_index = 0)
    (hpre : c.isInstalled pkg st.world = ((false, d0), w1))
    (hin1 : c.install pkg w1 = (⟨pkg, "failed", det1⟩, w2))
    (htlpdb : is_tlpdb_error det1 = true)
    (hset : c.setRepository B w2 = ((true, m), w3))
    (hin2 : c.install pkg w3 = (r2, w4))
    (hr2 : r2.status = "failed") :
    processPackage c [A, B] true st pkg =
      { st with
        world := w4,
        trace := st.trace ++
          [Event.isInstalledCall pkg false d0,
            Event.installCall pkg ⟨pkg, "failed", det1⟩,
            Event.setRepositoryCall B true m,
            Event.installCall pkg r2],
        failures := st.failures ++ [r2],
        current_repo_index := 1 } := by
  have hok : r2.status ≠ "ok" := by rw [hr2]; decide
  have hto : r2.status ≠ "timeout" := by rw [hr2]; decide
  simp [processPackage, failoverLoop, bucketResult, hidx, hpre, hin1, htlpdb, hset, hin2,
    hok, hto]

/-- Witness for C1 on the scripted TLPDB client: the failover for
`amsmath` produces exactly the pre-check, the failing install, the switch
to `repoB` and the failing retry, which lands in the failures bucket. -/
theorem tlpdb_failover_retries_once_then_fails_witness :
    processPackage tlpdbScriptClient ["repoA", "repoB"] true (initState 0) "amsmath" =
      { world := 2,
        trace := [Event.isInstalledCall "amsmath" false "not installed",
          Event.installCall "amsmath" ⟨"amsmath", "failed", "Could not get TeXLive.tlpdb"⟩,
          Event.setRepositoryCall "repoB" true "repository updated",
          Event.installCall "amsmath" ⟨"amsmath", "failed", "still failing"⟩],
        failures := [⟨"amsmath", "failed", "still failing"⟩],
        timeouts := [], skipped := [], current_repo_index := 1 } := by
  have h := tlpdb_failover_retries_once_then_fails (σ := Nat) tlpdbScriptClient
    "repoA" "repoB" "amsmath" (initState 0) "not installed" "Could not get TeXLive.tlpdb"
    "repository updated" 0 1 1 2 ⟨"amsmath", "failed", "still failing"⟩
    (by decide) (by decide) (by decide) (by decide) (by decide) (by decide) (by decide)
  rw [h]
  simp [initState]

/-- C10: a missing package-manager binary makes the install attempt yield
status `error` (not `failed`), so the failover gate — which tests for
status `failed` — never fires: even with auto-switch on and mirrors
configured, the loop appends exactly the pre-check and the one install
call (no `setRepository`, no retry), puts the result in the failures
bucket, and the post-run stage then exits with code 1. -/
theorem missing_binary_error_no_failover (c : Client σ) (repositories : List String)
    (tlmgr_cmd pkg : String) (tmo : Nat) (st : RunState σ) (d0 : String) (w1 w2 : σ)
    (verify_pkgs : List String)
    (hpre : c.isInstalled pkg st.world = ((false, d0), w1))
    (hinst : c.install pkg w1 = (run_tlmgr_install tlmgr_cmd pkg tmo ProcResult.fileNotFound, w2)) :
    run_tlmgr_install tlmgr_cmd pkg tmo ProcResult.fileNotFound =
      ⟨pkg, "error", s!"command not found: {tlmgr_cmd}"⟩ ∧
    processPackage c repositories true st pkg =
      { st with
        world := w2,
        trace := st.trace ++
          [Event.isInstalledCall pkg false d0,
            Event.installCall pkg ⟨pkg, "error", s!"command not found: {tlmgr_cmd}"⟩],
        failures := st.failures ++ [⟨pkg, "error", s!"command not found: {tlmgr_cmd}"⟩] } ∧
    (postInstall c verify_pkgs (processPackage c repositories true st pkg)).exitCode = 1 := by
  have h1 : run_tlmgr_install tlmgr_cmd pkg tmo ProcResult.fileNotFound =
      ⟨pkg, "error", s!"command not found: {tlmgr_cmd}"⟩ := rfl
  have h2 : processPackage c repositories true st pkg =
      { st with
        world := w2,
        trace := st.trace ++
          [Event.isInstalledCall pkg false d0,
            Event.installCall pkg ⟨pkg, "error", s!"command not found: {tlmgr_cmd}"⟩],
        failures := st.failures ++ [⟨pkg, "error", s!"command not found: {tlmgr_cmd}"⟩] } := by
    rw [h1] at hinst
    simp [processPackage, bucketResult, hpre, hinst]
  refine ⟨h1, h2, ?_⟩
  rw [h2]
  simp [postInstall]

/-- Witness for C10: a client whose install reports the missing binary,
with two mirrors configured and auto-switch on; the run for the single
package `amsmath` makes no `setRepository` call beyond the primary setup,
buckets the error result, and exits 1. -/
theorem missing_binary_error_no_failover_witness :
    run_tlmgr_install "tlmgr" "amsmath" 180 ProcResult.fileNotFound =
      ⟨"amsmath", "error", "command not found: tlmgr"⟩ ∧
    (postInstall
      { isInstalled := fun _ w => ((false, "not installed"), w),
        install := fun p w => (run_tlmgr_install "tlmgr" p 180 ProcResult.fileNotFound, w),
        setRepository := fun _ w => ((true, "repository updated"), w) }
      ["amsmath"]
      (processPackage
        { isInstalled := fun _ w => ((false, "not installed"), w),
          install := fun p w => (run_tlmgr_install "tlmgr" p 180 ProcResult.fileNotFound, w),
          setRepository := fun _ w => ((true, "repository updated"), w) }
        ["repoA", "repoB"] true (initState ()) "amsmath")).exitCode = 1 := by
  have h := missing_binary_error_no_failover (σ := Unit)
    { isInstalled := fun _ w => ((false, "not installed"), w),
      install := fun p w => (run_tlmgr_install "tlmgr" p 180 ProcResult.fileNotFound, w),
      setRepository := fun _ w => ((true, "repository updated"), w) }
    ["repoA", "repoB"] "tlmgr" "amsmath" 180 (initState ()) "not installed" () ()
    ["amsmath"] (by decide) (by decide)
  exact ⟨h.1, h.2.2⟩

/-! Helper lemmas for the repository-cursor claim. -/

lemma failoverLoop_cursor_mono (c : Client σ) (repositories : List String) (pkg : String)
    (fuel : Nat) (result : InstallResult) (st : RunState σ) :
    st.current_repo_index ≤ (failoverLoop c repositories pkg fuel result st).2.current_repo_index := by
  induction fuel generalizing result st with
  | zero => simp [failoverLoop]
  | succ n ih =>
    simp only [failoverLoop]
    split
    · split
      · simp
      · refine le_trans ?_ (ih _ _)
        exact Nat.le_succ _
    · exact le_refl _

lemma bucketResult_cursor_eq (c : Client σ) (pkg : String) (fo : InstallResult × RunState σ) :
    (bucketResult c pkg fo).current_repo_index = fo.2.current_repo_index := by
  simp only [bucketResult]
  split
  · rfl
  · split
    · split
      · rfl
      · rfl
    · rfl

lemma processPackage_cursor_mono (c : Client σ) (repositories : List String)
    (auto_switch_repo : Bool) (st : RunState σ) (pkg : String) :
    st.current_repo_index ≤ (processPackage c repositories auto_switch_repo st pkg).current_repo_index := by
  simp only [processPackage]
  split
  · exact le_refl _
  · rw [bucketResult_cursor_eq]
    split
    · refine le_trans ?_ (failoverLoop_cursor_mono c repositories pkg repositories.length _ _)
      exact Nat.le_refl _
    · exact le_refl _

/-- C9: within one run the repository cursor is monotonically
non-decreasing: a single loop iteration never lowers it, and over any
sequence of packages the final cursor is at least the starting cursor — in
particular it is never reset between packages, so once advanced to a
fallback mirror, failover for later packages starts from that position. -/
theorem repo_cursor_monotone (c : Client σ) (repositories : List String)
    (auto_switch_repo : Bool) :
    (∀ st pkg, st.current_repo_index ≤
      (processPackage c repositories auto_switch_repo st pkg).current_repo_index) ∧
    (∀ pkgs : List String, ∀ st : RunState σ, st.current_repo_index ≤
      (pkgs.foldl (processPackage c repositories auto_switch_repo) st).current_repo_index) := by
  refine ⟨processPackage_cursor_mono c repositories auto_switch_repo, ?_⟩
  intro pkgs
  induction pkgs with
  | nil => intro st; exact le_refl _
  | cons p rest ih =>
    intro st
    exact le_trans (processPackage_cursor_mono c repositories auto_switch_repo st p)
      (ih (processPackage c repositories auto_switch_repo st p))

/-! Helper lemmas for the idempotence claim. -/

lemma processPackage_all_installed (c : Client σ) (repositories : List String)
    (auto_switch_repo : Bool) (st : RunState σ) (p : String)
    (hp : ∀ w, (c.isInstalled p w).1.1 = true) :
    processPackage c repositories auto_switch_repo st p =
      { st with
        world := (c.isInstalled p st.world).2,
        trace := st.trace ++ [Event.isInstalledCall p true (c.isInstalled p st.world).1.2],
        skipped := st.skipped ++ [⟨p, "skipped", (c.isInstalled p st.world).1.2⟩] } := by
  simp [processPackage, hp st.world]

lemma install_loop_all_installed (c : Client σ) (repositories : List String)
    (auto_switch_repo : Bool) :
    ∀ (pkgs : List String) (st : RunState σ),
    (∀ p, p ∈ pkgs → ∀ w, (c.isInstalled p w).1.1 = true) →
    (pkgs.foldl (processPackage c repositories auto_switch_repo) st).failures = st.failures ∧
    (pkgs.foldl (processPackage c repositories auto_switch_repo) st).timeouts = st.timeouts ∧
    (pkgs.foldl (processPackage c repositories auto_switch_repo) st).skipped.map
        InstallResult.package = st.skipped.map InstallResult.package ++ pkgs ∧
    countInstallCalls (pkgs.foldl (processPackage c repositories auto_switch_repo) st).trace
      = countInstallCalls st.trace := by
  intro pkgs
  induction pkgs with
  | nil => intro st _; simp
  | cons p rest ih =>
    intro st h
    have hp : ∀ w, (c.isInstalled p w).1.1 = true := h p (List.mem_cons_self p rest)
    rw [List.foldl_cons, processPackage_all_installed c repositories auto_switch_repo st p hp]
    have h2 := ih
      { st with
        world := (c.isInstalled p st.world).2,
        trace := st.trace ++ [Event.isInstalledCall p true (c.isInstalled p st.world).1.2],
        skipped := st.skipped ++ [⟨p, "skipped", (c.isInstalled p st.world).1.2⟩] }
      (fun q hq w => h q (List.mem_cons_of_mem _ hq) w)
    rcases h2 with ⟨hf, ht, hs, hc⟩
    refine ⟨by rw [hf], by rw [ht], ?_, ?_⟩
    · rw [hs]
      simp
    · rw [hc]
      simp [countInstallCalls, List.filter_append, isInstallEvent]

lemma verify_loop_all_installed (c : Client σ) :
    ∀ (pkgs : List String) (st : RunState σ) (miss : List String),
    (∀ p, p ∈ pkgs → ∀ w, (c.isInstalled p w).1.1 = true) →
    (pkgs.foldl (verifyStep c) (st, miss)).2 = miss ∧
    countInstallCalls (pkgs.foldl (verifyStep c) (st, miss)).1.trace
      = countInstallCalls st.trace ∧
    (pkgs.foldl (verifyStep c) (st, miss)).1.skipped = st.skipped := by
  intro pkgs
  induction pkgs with
  | nil => intro st miss _; exact ⟨rfl, rfl, rfl⟩
  | cons p rest ih =>
    intro st miss h
    have hp : (c.isInstalled p st.world).1.1 = true := h p (List.mem_cons_self p rest) st.world
    have hstep : verifyStep c (st, miss) p =
        ({ st with
            world := (c.isInstalled p st.world).2,
            trace := st.trace ++ [Event.isInstalledCall p true (c.isInstalled p st.world).1.2] },
          miss) := by
      simp [verifyStep, hp]
    rw [List.foldl_cons, hstep]
    have h2 := ih
      { st with
        world := (c.isInstalled p st.world).2,
        trace := st.trace ++ [Event.isInstalledCall p true (c.isInstalled p st.world).1.2] }
      miss (fun q hq w => h q (List.mem_cons_of_mem _ hq) w)
    rcases h2 with ⟨hm, hc, hs⟩
    refine ⟨hm, ?_, hs⟩
    rw [hc]
    simp [countInstallCalls, List.filter_append, isInstallEvent]

lemma primarySetup_fields (c : Client σ) (repositories : List String) (w0 : σ) :
    (primarySetup c repositories (initState w0)).failures = [] ∧
    (primarySetup c repositories (initState w0)).timeouts = [] ∧
    (primarySetup c repositories (initState w0)).skipped = [] ∧
    countInstallCalls (primarySetup c repositories (initState w0)).trace = 0 := by
  cases repositories <;>
    simp [primarySetup, initState, countInstallCalls, isInstallEvent]

/-- C3: when the pre-check reports every resolved package as already
installed, the whole install phase performs zero install calls, records
every package (in order) as skipped, and the run ends in success (exit
code 0). -/
theorem all_installed_means_no_installs (c : Client σ) (repositories : List String)
    (auto_switch_repo : Bool) (pkgs : List String) (w0 : σ)
    (h : ∀ p, p ∈ pkgs → ∀ w, (c.isInstalled p w).1.1 = true) :
    countInstallCalls (installPhase c repositories auto_switch_repo pkgs w0).state.trace = 0 ∧
    (installPhase c repositories auto_switch_repo pkgs w0).state.skipped.map
        InstallResult.package = pkgs ∧
    (installPhase c repositories auto_switch_repo pkgs w0).exitCode = 0 := by
  rcases primarySetup_fields c repositories w0 with ⟨hf0, ht0, hs0, hc0⟩
  rcases install_loop_all_installed c repositories auto_switch_repo pkgs
      (primarySetup c repositories (initState w0)) h with ⟨hf, ht, hs, hc⟩
  rcases verify_loop_all_installed c pkgs
      (pkgs.foldl (processPackage c repositories auto_switch_repo)
        (primarySetup c repositories (initState w0))) [] h with ⟨hm, hvc, hvs⟩
  have hphase : installPhase c repositories auto_switch_repo pkgs w0 =
      ⟨0,
        (pkgs.foldl (verifyStep c)
          (pkgs.foldl (processPackage c repositories auto_switch_repo)
            (primarySetup c repositories (initState w0)), [])).1,
        []⟩ := by
    simp only [installPhase, postInstall]
    rw [if_neg, if_neg]
    · rw [hm]
    · rw [hm]
      simp
    · rw [hf, ht, hf0, ht0]
      simp
  rw [hphase]
  refine ⟨?_, ?_, rfl⟩
  · rw [hvc, hc, hc0]
  · rw [hvs, hs, hs0]
    simp

/-- Witness for C3 on the everything-already-installed client with two
packages: zero install calls, both packages skipped in order, exit 0. -/
theorem all_installed_means_no_installs_witness :
    countInstallCalls
        (installPhase idleClient ["repoA"] true ["amsmath", "graphicx"] ()).state.trace = 0 ∧
    (installPhase idleClient ["repoA"] true ["amsmath", "graphicx"] ()).state.skipped.map
        InstallResult.package = ["amsmath", "graphicx"] ∧
    (installPhase idleClient ["repoA"] true ["amsmath", "graphicx"] ()).exitCode = 0 :=
  all_installed_means_no_installs idleClient ["repoA"] true ["amsmath", "graphicx"] ()
    (fun _ _ _ => rfl)

/-! Helper lemmas for the post-run gating claim. -/

lemma verifyStep_trace (c : Client σ) (acc : RunState σ × List String) (p : String) :
    (verifyStep c acc p).1.trace = acc.1.trace ++
      [Event.isInstalledCall p (c.isInstalled p acc.1.world).1.1
        (c.isInstalled p acc.1.world).1.2] := by
  simp only [verifyStep]
  split <;> rfl

lemma verify_loop_count (c : Client σ) :
    ∀ (pkgs : List String) (acc : RunState σ × List String),
    countIsInstalledCalls (pkgs.foldl (verifyStep c) acc).1.trace
      = countIsInstalledCalls acc.1.trace + pkgs.length := by
  intro pkgs
  induction pkgs with
  | nil => intro acc; simp
  | cons p rest ih =>
    intro acc
    rw [List.foldl_cons]
    rw [ih (verifyStep c acc p), verifyStep_trace c acc p]
    simp only [countIsInstalledCalls, List.filter_append, List.length_append,
      isInstalledQueryEvent, List.filter_cons, List.filter_nil]
    simp [List.length_cons]
    omega

/-- C6: when the failed or timeout bucket is non-empty after the install
loop, the run exits with code 1 and performs no further client call (the
trace is unchanged, so the final verification pass is skipped); when both
buckets are empty, the final verification queries `isInstalled` exactly
once per resolved package, a non-empty missing list forces exit code 1,
and an empty one yields exit code 0. -/
theorem postrun_gating (c : Client σ) (pkgs : List String) (st : RunState σ) :
    (st.failures ≠ [] ∨ st.timeouts ≠ [] →
      (postInstall c pkgs st).exitCode = 1 ∧ (postInstall c pkgs st).state.trace = st.trace) ∧
    (st.failures = [] → st.timeouts = [] →
      countIsInstalledCalls (postInstall c pkgs st).state.trace
        = countIsInstalledCalls st.trace + pkgs.length ∧
      ((postInstall c pkgs st).missing_after_install ≠ [] →
        (postInstall c pkgs st).exitCode = 1) ∧
      ((postInstall c pkgs st).missing_after_install = [] →
        (postInstall c pkgs st).exitCode = 0)) := by
  constructor
  · intro hbad
    have hpost : postInstall c pkgs st = ⟨1, st, []⟩ := by
      simp only [postInstall]
      rw [if_pos hbad]
    rw [hpost]
    exact ⟨rfl, rfl⟩
  · intro hf ht
    have hcond : ¬ (st.failures ≠ [] ∨ st.timeouts ≠ []) := by simp [hf, ht]
    by_cases hv : (pkgs.foldl (verifyStep c) (st, [])).2 = []
    · have hpost : postInstall c pkgs st =
          ⟨0, (pkgs.foldl (verifyStep c) (st, [])).1,
            (pkgs.foldl (verifyStep c) (st, [])).2⟩ := by
        simp only [postInstall]
        rw [if_neg hcond, if_neg (by simp [hv])]
      rw [hpost]
      refine ⟨?_, ?_, fun _ => rfl⟩
      · simpa using verify_loop_count c pkgs (st, [])
      · intro hmiss
        exact absurd hv hmiss
    · have hpost : postInstall c pkgs st =
          ⟨1, (pkgs.foldl (verifyStep c) (st, [])).1,
            (pkgs.foldl (verifyStep c) (st, [])).2⟩ := by
        simp only [postInstall]
        rw [if_neg hcond, if_pos hv]
      rw [hpost]
      refine ⟨?_, fun _ => rfl, ?_⟩
      · simpa using verify_loop_count c pkgs (st, [])
      · intro hmiss
        exact absurd hmiss hv

/-- Witness for C6: a run state with one failure exits 1 (with no
verification), and a clean run state over the everything-installed client
verifies and exits 0. -/
theorem postrun_gating_witness :
    (postInstall idleClient ["amsmath"]
        { world := (), trace := [], failures := [⟨"amsmath", "failed", "mirror down"⟩],
          timeouts := [], skipped := [], current_repo_index := 0 }).exitCode = 1 ∧
    (postInstall idleClient ["amsmath"]
        { world := (), trace := [], failures := [], timeouts := [], skipped := [],
          current_repo_index := 0 }).exitCode = 0 := by
  have h1 := postrun_gating idleClient ["amsmath"]
    { world := (), trace := [], failures := [⟨"amsmath", "failed", "mirror down"⟩],
      timeouts := [], skipped := [], current_repo_index := 0 }
  have h2 := postrun_gating idleClient ["amsmath"]
    { world := (), trace := [], failures := [], timeouts := [], skipped := [],
      current_repo_index := 0 }
  refine ⟨(h1.1 (Or.inl (by simp))).1, ?_⟩
  exact (h2.2 rfl rfl).2.2 (by decide)
